import Mathlib

/-!
Verification of the Cosmos DB storage provider of the botbuilder-js SDK
(`libraries/botbuilder-azure/src/cosmosDbStorage.ts`).

The development shallowly embeds the provider: JavaScript objects become
association lists from field names to JSON values, the Cosmos container
becomes an explicit record store with server-assigned etags, and the
asynchronous per-key fan-out of `write`/`delete` is made explicit by
separating the outcome of the promise the operation returns from the
outcomes of the detached per-key tasks that the un-awaited
`Object.keys(changes).map(async ...)` launches.  Transport failures of the
backing service are injected through explicit fault parameters.

The repository holds two revisions of the file; the newer revision (the
one with `errWithNewMessage` and the `blankDocumentStoreItem` check) is
embedded as the current code, and the older revision's constructor check
is embedded separately for comparison.
-/

set_option autoImplicit false

/-- Decidable equality for `Except`, used to evaluate concrete runs. -/
instance {ε α : Type} [DecidableEq ε] [DecidableEq α] : DecidableEq (Except ε α) := fun x y =>
  match x, y with
  | .ok a, .ok b =>
      if h : a = b then isTrue (by rw [h]) else isFalse (fun hh => by cases hh; exact h rfl)
  | .error a, .error b =>
      if h : a = b then isTrue (by rw [h]) else isFalse (fun hh => by cases hh; exact h rfl)
  | .ok _, .error _ => isFalse (fun hh => by cases hh)
  | .error _, .ok _ => isFalse (fun hh => by cases hh)

/-! ## JavaScript value and object model -/

/-- A JSON-style primitive value stored in a bot state object. -/
inductive JsonVal where
  | str : String → JsonVal
  | num : Int → JsonVal
  | boolean : Bool → JsonVal
  | null : JsonVal
deriving DecidableEq, Repr

/-- A JavaScript object: an association list from property names to values,
with at most one entry per property name in all objects the code builds. -/
abbrev JsObj := List (String × JsonVal)

/-- Property lookup, `o[k]`: the first entry whose key matches. -/
def assocFind {α : Type} : List (String × α) → String → Option α
  | [], _ => none
  | (k2, v2) :: rest, k => if k2 = k then some v2 else assocFind rest k

/-- Property assignment, `o[k] = v`: overwrite the first matching entry in
place, append the entry when the property is absent. -/
def assocSet {α : Type} : List (String × α) → String → α → List (String × α)
  | [], k, v => [(k, v)]
  | (k2, v2) :: rest, k, v =>
    if k2 = k then (k2, v) :: rest else (k2, v2) :: assocSet rest k v

/-- Property removal, `delete o[k]`. -/
def assocDelete {α : Type} (m : List (String × α)) (k : String) : List (String × α) :=
  m.filter (fun p => decide (p.1 ≠ k))

/-- JavaScript truthiness of `o[k]` when it holds a primitive:
`undefined`, `null`, `''`, `0` and `false` are falsy. -/
def jsFalsyVal : Option JsonVal → Bool
  | none => true
  | some (.str s) => s = ""
  | some (.num n) => n = 0
  | some (.boolean b) => !b
  | some .null => true

/-- JavaScript strict equality of `o[k]` against a string literal. -/
def jsEqStrVal : Option JsonVal → String → Bool
  | some (.str s), t => s = t
  | _, _ => false

/-- JavaScript evaluation of `o[k].length > 0` in a context where `o[k]`
is known truthy: for a string the length test, for any other truthy
primitive `undefined > 0`, which is false. -/
def jsStrLenPos : Option JsonVal → Bool
  | some (.str s) => 0 < s.length
  | _ => false

/-- The string payload of `o[k]`, used only where the code has already
established it is a string. -/
def jsStrOf : Option JsonVal → String
  | some (.str s) => s
  | _ => ""

/-- JavaScript `s.trim()`: strip leading and trailing whitespace. -/
def jsTrim (s : String) : String :=
  String.mk (((s.toList.dropWhile Char.isWhitespace).reverse.dropWhile Char.isWhitespace).reverse)

/-- JavaScript truthiness of an optional string (`undefined` and `''` falsy). -/
def jsTruthyOpt : Option String → Bool
  | none => false
  | some s => !(s = "")

/-- JavaScript `v || ''` on an optional string. -/
def jsOrEmptyStr : Option String → String
  | none => ""
  | some s => s

/-! ## Error model

`@azure/cosmos` surfaces failures either as JavaScript `Error` instances or
as plain objects resembling HTTP responses with a numeric `code`. -/

/-- A raw error produced by the backing client before the provider wraps it. -/
inductive RawErr where
  | jsError : String → RawErr
  | httpObj : Nat → RawErr
deriving DecidableEq, Repr

/-- The `code` property of a raw error (`undefined` on an `Error` instance). -/
def rawCode : RawErr → Option Nat
  | .jsError _ => none
  | .httpObj c => some c

/-- One character of `JSON.stringify` string escaping. -/
def jsonEscapeChar (c : Char) : String :=
  if c = '"' then "\\\"" else if c = '\\' then "\\\\" else String.singleton c

/-- `JSON.stringify` applied to a string. -/
def jsonStringifyString (s : String) : String :=
  "\"" ++ String.join (s.toList.map jsonEscapeChar) ++ "\""

/-- `JSON.stringify` applied to a raw HTTP-shaped error object. -/
def jsonStringifyRaw : RawErr → String
  | .jsError m => jsonStringifyString m
  | .httpObj c => "\x7b\"code\":" ++ toString c ++ "\x7d"

/-- The wrapped error `errWithNewMessage` returns: a message prefixed with
the call-site description and the original raw error kept as a chained
cause on the `original` property. -/
structure WrappedErr where
  message : String
  original : RawErr
deriving DecidableEq, Repr

/-- An error thrown by a storage operation: either a wrapped backing-store
error or a plain `new Error(...)` such as the `etag empty` throw. -/
inductive StorageErr where
  | wrapped : WrappedErr → StorageErr
  | plain : String → StorageErr
deriving DecidableEq, Repr

namespace CosmosDbStorage

/-- Embedding of `CosmosDbStorage.errWithNewMessage` (newer revision):
an `Error` instance has its message stringified and prefixed; a code-only
object is stringified wholesale into a fresh `Error`; in both cases the
original error is preserved on the result. -/
def errWithNewMessage (err : RawErr) (message : String) : WrappedErr :=
  match err with
  | .jsError m =>
      { message := message ++ ": " ++ jsonStringifyString m, original := .jsError m }
  | .httpObj c =>
      { message := message ++ ": " ++ jsonStringifyRaw (.httpObj c), original := .httpObj c }

end CosmosDbStorage

/-! ## Settings and construction -/

/-- `CosmosDbStorageSettings`; the opaque request-option objects are not
modelled since the provider only forwards them. -/
structure CosmosDbStorageSettings where
  serviceEndpoint : String
  authKey : String
  databaseId : String
  collectionId : String
  partitionKey : Option String
  partitionValue : Option String
deriving DecidableEq, Repr

namespace CosmosDbStorage

/-- The shallow copy `{...settings}` the constructor stores. -/
def copySettings (s : CosmosDbStorageSettings) : CosmosDbStorageSettings :=
  { serviceEndpoint := s.serviceEndpoint
    authKey := s.authKey
    databaseId := s.databaseId
    collectionId := s.collectionId
    partitionKey := s.partitionKey
    partitionValue := s.partitionValue }

/-- Prepend a path separator when `partitionKey.charAt(0)` is not already one. -/
def addLeadingSlash (p : String) : String :=
  if p.take 1 ≠ "/" then "/" ++ p else p

/-- The normalization the newer constructor applies to its stored copy:
slash-prefix a truthy partition key, then default the partition value to
the empty string. -/
def normalizeSettings (s : CosmosDbStorageSettings) : CosmosDbStorageSettings :=
  let s1 :=
    if jsTruthyOpt s.partitionKey then
      { s with partitionKey := some (addLeadingSlash (jsOrEmptyStr s.partitionKey)) }
    else s
  { s1 with partitionValue := some (jsOrEmptyStr s1.partitionValue) }

/-- The newer constructor's reserved-field probe: index the typed
`blankDocumentStoreItem` (whose properties `id`, `realId` and `document`
all hold the string `'true'`) with the normalized partition key, an
`undefined` key reading as the property name `undefined`. -/
def blankDocumentStoreItemLookup (pk : Option String) : Option String :=
  let key := match pk with | none => "undefined" | some p => p
  if key = "id" ∨ key = "realId" ∨ key = "document" then some "true" else none

/-- Embedding of the newer `CosmosDbStorage` constructor: validate the four
required strings, store a shallow copy of the settings, normalize the copy,
and run the reserved-partition-key probe on the normalized copy. -/
def construct (settings : CosmosDbStorageSettings) : Except String CosmosDbStorageSettings :=
  if jsTrim settings.serviceEndpoint = "" then
    .error "The settings service Endpoint is required."
  else if jsTrim settings.authKey = "" then
    .error "The settings authKey is required."
  else if jsTrim settings.databaseId = "" then
    .error "The settings dataBase ID is required."
  else if jsTrim settings.collectionId = "" then
    .error "The settings collection ID is required."
  else
    let stored := normalizeSettings (copySettings settings)
    if blankDocumentStoreItemLookup stored.partitionKey = some "true" then
      .error "partitionKey cannot be set to any: id,realId,document"
    else
      .ok stored

/-- Embedding of the older revision's constructor tail: same validation and
slash normalization, no partition-value defaulting, and a reserved-key check
comparing the normalized key against the slash-prefixed reserved names. -/
def constructOld (settings : CosmosDbStorageSettings) : Except String CosmosDbStorageSettings :=
  if jsTrim settings.serviceEndpoint = "" then
    .error "The settings service Endpoint is required."
  else if jsTrim settings.authKey = "" then
    .error "The settings authKey is required."
  else if jsTrim settings.databaseId = "" then
    .error "The settings dataBase ID is required."
  else if jsTrim settings.collectionId = "" then
    .error "The settings collection ID is required."
  else
    let s0 := copySettings settings
    let stored :=
      if jsTruthyOpt s0.partitionKey then
        { s0 with partitionKey := some (addLeadingSlash (jsOrEmptyStr s0.partitionKey)) }
      else s0
    if (match stored.partitionKey with
        | some p => ["/id", "/realId", "/document"].contains p
        | none => false) then
      .error "partitionKey cannot be set to \"id\", \"realId\", or \"document\""
    else
      .ok stored

/-- Embedding of `formatPartitionKeyValue`: when a partition key is
configured, the spread entry pairing the key with its leading slash removed
against `partitionValue || ''`. -/
def formatPartitionKeyValue (ns : CosmosDbStorageSettings) : Option (String × String) :=
  if jsTruthyOpt ns.partitionKey then
    some ((jsOrEmptyStr ns.partitionKey).drop 1, jsOrEmptyStr ns.partitionValue)
  else
    none

end CosmosDbStorage

namespace CosmosDbKeyEscape

/-- Modelled from the spec: `CosmosDbKeyEscape.escapeKey` lives in
`cosmosDbKeyEscape.ts`, which is not under the provided sources; the spec
(section 6) requires a deterministic, total, practically injective map that
escapes the characters illegal in Cosmos identifiers. Each illegal
character is replaced by a star followed by its character code. -/
def escapeKey (k : String) : String :=
  String.join (k.toList.map (fun c =>
    if c = '/' ∨ c = '\\' ∨ c = '#' ∨ c = '?' then "*" ++ toString c.toNat
    else String.singleton c))

end CosmosDbKeyEscape

/-! ## Stored documents and the backing container

A `DocumentStoreItem` body is a JavaScript object whose `id`, `realId` and
`document` properties are built first and whose optional partition entry is
spread in last, so a partition field named after a reserved property
overwrites it exactly as the object spread does. -/

/-- A property value of a stored document: a primitive or a nested object. -/
inductive DocVal where
  | prim : JsonVal → DocVal
  | obj : JsObj → DocVal
deriving DecidableEq, Repr

/-- A document body sent to or held by the backing container. -/
abbrev Doc := List (String × DocVal)

/-- The `id` property of a document body (the sanitized key). -/
def docId (d : Doc) : String :=
  match assocFind d "id" with
  | some (.prim (.str s)) => s
  | _ => ""

/-- The `realId` property of a document body (the original key). -/
def docRealId (d : Doc) : String :=
  match assocFind d "realId" with
  | some (.prim (.str s)) => s
  | _ => ""

/-- The `document` property of a document body (the stored payload). -/
def docPayload (d : Doc) : JsObj :=
  match assocFind d "document" with
  | some (.obj o) => o
  | _ => []

/-- A record held by the backing container: a document body together with
the server-assigned `_etag`. -/
structure StoredRecord where
  doc : Doc
  etag : String
deriving DecidableEq, Repr

/-- The backing container: its records and a counter supplying fresh etags. -/
structure Container where
  recs : List StoredRecord
  ctr : Nat
deriving DecidableEq, Repr

/-- The etag the backing service assigns to the next mutated record. -/
def freshEtag (n : Nat) : String := "etag-" ++ toString n

/-- The record stored under a sanitized key, if any. -/
def findRec (c : Container) (id : String) : Option StoredRecord :=
  c.recs.find? (fun r => docId r.doc = id)

/-- Backing-service semantics of an unconditional upsert: replace the
record with the same `id`, or append a new one, assigning a fresh etag. -/
def upsertRec (c : Container) (d : Doc) : Container :=
  let r : StoredRecord := { doc := d, etag := freshEtag c.ctr }
  if c.recs.any (fun x => docId x.doc = docId d) then
    { recs := c.recs.map (fun x => if docId x.doc = docId d then r else x), ctr := c.ctr + 1 }
  else
    { recs := c.recs ++ [r], ctr := c.ctr + 1 }

/-- `container.items.upsert` with an injectable transport fault. -/
def itemsUpsert (c : Container) (fault : Option RawErr) (d : Doc) : Except RawErr Container :=
  match fault with
  | some e => .error e
  | none => .ok (upsertRec c d)

/-- `container.item(id, ...).replace` with an `IfMatch` access condition:
404 when the record is absent, 412 when the stored etag differs from the
condition (leaving the container unchanged), otherwise replace the body and
assign a fresh etag. -/
def itemReplace (c : Container) (fault : Option RawErr) (id cond : String) (d : Doc) :
    Except RawErr Container :=
  match fault with
  | some e => .error e
  | none =>
    match findRec c id with
    | none => .error (.httpObj 404)
    | some r =>
      if r.etag = cond then
        .ok { recs := c.recs.map (fun x =>
                if docId x.doc = id then { doc := d, etag := freshEtag c.ctr } else x),
              ctr := c.ctr + 1 }
      else
        .error (.httpObj 412)

/-- `container.item(id, ...).delete`: 404 when the record is absent. -/
def itemPointDelete (c : Container) (fault : Option RawErr) (id : String) :
    Except RawErr Container :=
  match fault with
  | some e => .error e
  | none =>
    match findRec c id with
    | none => .error (.httpObj 404)
    | some _ => .ok { recs := c.recs.filter (fun x => !(docId x.doc = id)), ctr := c.ctr }

/-- Execution of the batched `WHERE c.id in (...)` query: the records whose
sanitized key occurs among the query parameters. -/
def itemsQuery (c : Container) (fault : Option RawErr) (ids : List String) :
    Except RawErr (List StoredRecord) :=
  match fault with
  | some e => .error e
  | none => .ok (c.recs.filter (fun r => ids.contains (docId r.doc)))

/-- A call the provider issues against the backing service. -/
inductive BackendCall where
  | createDatabaseCall : BackendCall
  | createContainerCall : BackendCall
  | queryCall : List String → BackendCall
  | upsertCall : String → BackendCall
  | replaceCall : String → String → BackendCall
  | deleteCall : String → BackendCall
deriving DecidableEq, Repr

/-- Whether a backend call is one of the two lazy provisioning calls. -/
def isProvisionCall : BackendCall → Bool
  | .createDatabaseCall => true
  | .createContainerCall => true
  | _ => false

/-! ## Store state and the public operations -/

/-- The mutable state of a `CosmosDbStorage` instance: whether the lazy
database and container handles have been materialized, plus the backing
container contents. -/
structure StoreState where
  database : Bool
  container : Bool
  cont : Container
deriving DecidableEq, Repr

/-- Outcome of an awaited step: its result, the store state after it, and
the backend calls it issued. -/
structure StepResult (α : Type) where
  result : Except StorageErr α
  state : StoreState
  calls : List BackendCall
deriving Repr

namespace CosmosDbStorage

/-- Embedding of `getOrCreateDatabase`: a create-if-not-exists call whose
409 conflict response is swallowed without setting the handle; any other
failure is wrapped; success caches the database handle. -/
def getOrCreateDatabase (st : StoreState) (fault : Option RawErr) : StepResult Unit :=
  match fault with
  | none =>
      { result := .ok (), state := { st with database := true },
        calls := [.createDatabaseCall] }
  | some e =>
      if rawCode e = some 409 then
        { result := .ok (), state := st, calls := [.createDatabaseCall] }
      else
        { result := .error (.wrapped (errWithNewMessage e "Error initializing database")),
          state := st, calls := [.createDatabaseCall] }

/-- The message of the schema-mismatch error for 400 responses. -/
def partitionMismatchMsg : String :=
  "Error initializing container. You might be using partitions in a non-partitioned DB or\n" ++
    "                are not using partitions in a partitioned db that already contains partitioned data"

/-- The message of the TypeError raised by dereferencing a null handle. -/
def nullHandleMsg : String := "Cannot read property of null"

/-- Embedding of `getOrCreateContainer` (newer revision): dereferencing a
null database handle raises a TypeError caught by the same handler; a 400
response becomes the distinguished schema-mismatch error; a 409 conflict is
swallowed without setting the handle; any other failure is wrapped; success
caches the container handle. -/
def getOrCreateContainer (st : StoreState) (fault : Option RawErr) : StepResult Unit :=
  if !st.database then
    { result := .error (.wrapped
        (errWithNewMessage (.jsError nullHandleMsg) "Error initializing container")),
      state := st, calls := [] }
  else
    match fault with
    | none =>
        { result := .ok (), state := { st with container := true },
          calls := [.createContainerCall] }
    | some e =>
        if rawCode e = some 400 then
          { result := .error (.wrapped (errWithNewMessage e partitionMismatchMsg)),
            state := st, calls := [.createContainerCall] }
        else if rawCode e = some 409 then
          { result := .ok (), state := st, calls := [.createContainerCall] }
        else
          { result := .error (.wrapped (errWithNewMessage e "Error initializing container")),
            state := st, calls := [.createContainerCall] }

/-- Embedding of `ensureContainerExists`: create the database only while
its handle is unset, then the container only while its handle is unset;
a failure of either step propagates to the awaiting public operation. -/
def ensureContainerExists (st : StoreState) (dbFault contFault : Option RawErr) :
    StepResult Unit :=
  let step1 :=
    if !st.database then getOrCreateDatabase st dbFault
    else { result := .ok (), state := st, calls := [] }
  match step1.result with
  | .error e => { result := .error e, state := step1.state, calls := step1.calls }
  | .ok _ =>
    let st1 := step1.state
    if !st1.container then
      let step2 := getOrCreateContainer st1 contFault
      { result := step2.result, state := step2.state, calls := step1.calls ++ step2.calls }
    else
      { result := .ok (), state := st1, calls := step1.calls }

/-- One query parameter; `extra` is the spread of `formatPartitionKeyValue()`
into the parameter object. -/
structure QuerySpecParameter where
  name : String
  value : String
  extra : Option (String × String)
deriving DecidableEq, Repr

/-- The batched query specification `read` builds before provisioning. -/
structure QuerySpec where
  query : String
  parameters : List QuerySpecParameter
deriving DecidableEq, Repr

/-- Embedding of the query construction in `read`: one `@idN` parameter per
key, holding the escaped key, all joined into a single `IN` query. -/
def buildQuerySpec (ns : CosmosDbStorageSettings) (keys : List String) : QuerySpec :=
  let parameterSequence :=
    String.intercalate "," ((List.range keys.length).map (fun ix => "@id" ++ toString ix))
  { query := "SELECT c.id, c.realId, c.document, c._etag FROM c WHERE c.id in ("
      ++ parameterSequence ++ ")",
    parameters := keys.enum.map (fun p =>
      { name := "@id" ++ toString p.1,
        value := CosmosDbKeyEscape.escapeKey p.2,
        extra := formatPartitionKeyValue ns }) }

/-- One returned record pushed into the result mapping:
`storeItems[resource.realId] = resource.document` followed by
`storeItems[resource.realId].eTag = resource._etag`. -/
def insertResource (m : List (String × JsObj)) (r : StoredRecord) : List (String × JsObj) :=
  assocSet m (docRealId r.doc) (assocSet (docPayload r.doc) "eTag" (.str r.etag))

/-- The result mapping accumulated over the query result. -/
def readResultMap (recs : List StoredRecord) : List (String × JsObj) :=
  recs.foldl insertResource []

/-- Embedding of `read`: a null or empty key list returns an empty mapping
with no backend contact; otherwise build the query, provision, run the
query, and fold the returned records into the result mapping. A 400 from
the query becomes the schema-mismatch error, any other failure the wrapped
read error; a null container handle after provisioning raises a TypeError
caught by the same handler. -/
def read (ns : CosmosDbStorageSettings) (st : StoreState)
    (dbFault contFault qFault : Option RawErr) (keys : Option (List String)) :
    StepResult (List (String × JsObj)) :=
  match keys with
  | none => { result := .ok [], state := st, calls := [] }
  | some ks =>
    if ks.length = 0 then
      { result := .ok [], state := st, calls := [] }
    else
      let spec := buildQuerySpec ns ks
      let e := ensureContainerExists st dbFault contFault
      match e.result with
      | .error err => { result := .error err, state := e.state, calls := e.calls }
      | .ok _ =>
        if !e.state.container then
          { result := .error (.wrapped
              (errWithNewMessage (.jsError nullHandleMsg) "Error reading from container")),
            state := e.state, calls := e.calls }
        else
          let ids := spec.parameters.map (fun p => p.value)
          match itemsQuery e.state.cont qFault ids with
          | .ok recs =>
              { result := .ok (readResultMap recs), state := e.state,
                calls := e.calls ++ [.queryCall ids] }
          | .error err =>
              if rawCode err = some 400 then
                { result := .error (.wrapped (errWithNewMessage err partitionMismatchMsg)),
                  state := e.state, calls := e.calls ++ [.queryCall ids] }
              else
                { result := .error (.wrapped (errWithNewMessage err "Error reading from container")),
                  state := e.state, calls := e.calls ++ [.queryCall ids] }

/-- Embedding of the `DocumentStoreItem` literal built per key in `write`:
the sanitized key, the original key, the stripped payload, and the
partition entry spread last (overwriting a reserved property it collides
with, exactly as the object spread does). -/
def mkDocumentChange (ns : CosmosDbStorageSettings) (k : String) (payload : JsObj) : Doc :=
  let base : Doc :=
    [("id", .prim (.str (CosmosDbKeyEscape.escapeKey k))),
     ("realId", .prim (.str k)),
     ("document", .obj payload)]
  match formatPartitionKeyValue ns with
  | none => base
  | some fv => assocSet base fv.1 (.prim (.str fv.2))

/-- The detached per-key task of `write`: copy the item, delete `eTag` from
the copy, build the document, then dispatch on `changes[k].eTag` — falsy or
the wildcard go to an unconditional upsert, a non-empty string to an
if-match replace, and the residual branch throws `etag empty`. Failures of
the backing call are wrapped; a null container handle raises a TypeError
caught by the same handlers. -/
def writeOneKey (ns : CosmosDbStorageSettings) (hasContainer : Bool) (c : Container)
    (fault : Option RawErr) (k : String) (item : JsObj) :
    Except StorageErr Unit × Container × List BackendCall :=
  let changesCopy := assocDelete item "eTag"
  let documentChange := mkDocumentChange ns k changesCopy
  let eTag := assocFind item "eTag"
  if jsFalsyVal eTag || jsEqStrVal eTag "*" then
    if !hasContainer then
      (.error (.wrapped (errWithNewMessage (.jsError nullHandleMsg) "Error upserting document")),
       c, [])
    else
      match itemsUpsert c fault documentChange with
      | .ok c2 => (.ok (), c2, [.upsertCall (docId documentChange)])
      | .error e =>
          (.error (.wrapped (errWithNewMessage e "Error upserting document")), c,
           [.upsertCall (docId documentChange)])
  else if jsStrLenPos eTag then
    if !hasContainer then
      (.error (.wrapped (errWithNewMessage (.jsError nullHandleMsg) "Error replacing document")),
       c, [])
    else
      match itemReplace c fault (CosmosDbKeyEscape.escapeKey k) (jsStrOf eTag) documentChange with
      | .ok c2 => (.ok (), c2, [.replaceCall (CosmosDbKeyEscape.escapeKey k) (jsStrOf eTag)])
      | .error e =>
          (.error (.wrapped (errWithNewMessage e "Error replacing document")), c,
           [.replaceCall (CosmosDbKeyEscape.escapeKey k) (jsStrOf eTag)])
  else
    (.error (.plain "etag empty"), c, [])

/-- The detached per-key tasks launched by `write`, run in key order; each
entry consumes the head of the transport-fault schedule. -/
def runWriteTasks (ns : CosmosDbStorageSettings) (hasContainer : Bool) :
    List (String × JsObj) → List (Option RawErr) → Container →
    Container × List (String × Except StorageErr Unit) × List BackendCall
  | [], _, c => (c, [], [])
  | (k, item) :: rest, faults, c =>
    let step := writeOneKey ns hasContainer c (faults.headD none) k item
    let tail := runWriteTasks ns hasContainer rest faults.tail step.2.1
    (tail.1, (k, step.1) :: tail.2.1, step.2.2 ++ tail.2.2)

/-- Outcome of `write` or `delete`: the result of the promise the method
returns, the outcomes of the detached per-key tasks it never awaits, the
final store state, and the backend calls issued. -/
structure FanoutResult where
  promiseResult : Except StorageErr Unit
  taskResults : List (String × Except StorageErr Unit)
  state : StoreState
  calls : List BackendCall
deriving Repr

/-- Embedding of `write`: a null or empty changes mapping returns at once
with no backend contact; otherwise provisioning is awaited (its failure
rejects the returned promise), after which the per-key tasks are launched
by an un-awaited `map`, so the returned promise fulfills regardless of the
task outcomes. -/
def write (ns : CosmosDbStorageSettings) (st : StoreState)
    (dbFault contFault : Option RawErr) (faults : List (Option RawErr))
    (changes : Option (List (String × JsObj))) : FanoutResult :=
  match changes with
  | none => { promiseResult := .ok (), taskResults := [], state := st, calls := [] }
  | some chs =>
    if chs.length = 0 then
      { promiseResult := .ok (), taskResults := [], state := st, calls := [] }
    else
      let e := ensureContainerExists st dbFault contFault
      match e.result with
      | .error err =>
          { promiseResult := .error err, taskResults := [], state := e.state, calls := e.calls }
      | .ok _ =>
          let tasks := runWriteTasks ns e.state.container chs faults e.state.cont
          { promiseResult := .ok (), taskResults := tasks.2.1,
            state := { e.state with cont := tasks.1 }, calls := e.calls ++ tasks.2.2 }

/-- The detached per-key task of `delete`: a point-delete whose 404
response is swallowed and whose other failures are wrapped; a null
container handle raises a TypeError caught by the same handler. -/
def deleteOneKey (ns : CosmosDbStorageSettings) (hasContainer : Bool) (c : Container)
    (fault : Option RawErr) (k : String) :
    Except StorageErr Unit × Container × List BackendCall :=
  if !hasContainer then
    (.error (.wrapped (errWithNewMessage (.jsError nullHandleMsg) "Unable to delete document")),
     c, [])
  else
    match itemPointDelete c fault (CosmosDbKeyEscape.escapeKey k) with
    | .ok c2 => (.ok (), c2, [.deleteCall (CosmosDbKeyEscape.escapeKey k)])
    | .error e =>
        if rawCode e = some 404 then
          (.ok (), c, [.deleteCall (CosmosDbKeyEscape.escapeKey k)])
        else
          (.error (.wrapped (errWithNewMessage e "Unable to delete document")), c,
           [.deleteCall (CosmosDbKeyEscape.escapeKey k)])

/-- The detached per-key tasks launched by `delete`, run in key order. -/
def runDeleteTasks (ns : CosmosDbStorageSettings) (hasContainer : Bool) :
    List String → List (Option RawErr) → Container →
    Container × List (String × Except StorageErr Unit) × List BackendCall
  | [], _, c => (c, [], [])
  | k :: rest, faults, c =>
    let step := deleteOneKey ns hasContainer c (faults.headD none) k
    let tail := runDeleteTasks ns hasContainer rest faults.tail step.2.1
    (tail.1, (k, step.1) :: tail.2.1, step.2.2 ++ tail.2.2)

/-- Embedding of `delete`: a null or empty key list returns at once with no
backend contact; otherwise provisioning is awaited, after which the per-key
tasks are launched by a `map` whose promises are not awaited (awaiting the
array resolves immediately), so the returned promise fulfills regardless of
the task outcomes. -/
def deleteKeys (ns : CosmosDbStorageSettings) (st : StoreState)
    (dbFault contFault : Option RawErr) (faults : List (Option RawErr))
    (keys : Option (List String)) : FanoutResult :=
  match keys with
  | none => { promiseResult := .ok (), taskResults := [], state := st, calls := [] }
  | some ks =>
    if ks.length = 0 then
      { promiseResult := .ok (), taskResults := [], state := st, calls := [] }
    else
      let e := ensureContainerExists st dbFault contFault
      match e.result with
      | .error err =>
          { promiseResult := .error err, taskResults := [], state := e.state, calls := e.calls }
      | .ok _ =>
          let tasks := runDeleteTasks ns e.state.container ks faults e.state.cont
          { promiseResult := .ok (), taskResults := tasks.2.1,
            state := { e.state with cont := tasks.1 }, calls := e.calls ++ tasks.2.2 }

end CosmosDbStorage

/-! ## Concrete fixtures -/

/-- A well-formed settings object without partitioning. -/
def settings0 : CosmosDbStorageSettings :=
  { serviceEndpoint := "https://localhost:8081", authKey := "key",
    databaseId := "test-db", collectionId := "bot-storage",
    partitionKey := none, partitionValue := none }

/-- The stored, normalized settings of a store built from `settings0`. -/
def ns0 : CosmosDbStorageSettings :=
  CosmosDbStorage.normalizeSettings (CosmosDbStorage.copySettings settings0)

/-- A one-field item without a version tag. -/
def item1 : JsObj := [("count", JsonVal.num 1)]

/-- The document body a write of `item1` under key `k` produces. -/
def doc1 : Doc := CosmosDbStorage.mkDocumentChange ns0 "k" item1

/-- A container holding that document under etag `etag-0`. -/
def cont1 : Container := { recs := [{ doc := doc1, etag := "etag-0" }], ctr := 1 }

/-- A store whose handles are materialized over `cont1`. -/
def st1 : StoreState := { database := true, container := true, cont := cont1 }

/-- A freshly constructed store: no handles, empty container. -/
def stFresh : StoreState := { database := false, container := false, cont := { recs := [], ctr := 0 } }

/-! ## Association-list lemmas -/

theorem assocFind_assocSet_self {α : Type} (m : List (String × α)) (k : String) (v : α) :
    assocFind (assocSet m k v) k = some v := by
  induction m with
  | nil => simp [assocSet, assocFind]
  | cons p rest ih =>
    obtain ⟨p1, p2⟩ := p
    by_cases h : p1 = k
    · simp [assocSet, assocFind, h]
    · simp [assocSet, assocFind, h, ih]

theorem assocFind_assocSet_ne {α : Type} (m : List (String × α)) (k k2 : String) (v : α)
    (h : k2 ≠ k) : assocFind (assocSet m k v) k2 = assocFind m k2 := by
  have hk : ¬ (k = k2) := fun hh => h hh.symm
  induction m with
  | nil => simp [assocSet, assocFind, hk]
  | cons p rest ih =>
    obtain ⟨p1, p2⟩ := p
    by_cases hp : p1 = k
    · have hk2 : ¬ (p1 = k2) := by rw [hp]; exact hk
      simp [assocSet, assocFind, hp, hk2, hk]
    · by_cases hq : p1 = k2
      · simp [assocSet, assocFind, hp, hq, h]
      · simp [assocSet, assocFind, hp, hq, ih]

theorem assocFind_assocDelete_self {α : Type} (m : List (String × α)) (k : String) :
    assocFind (assocDelete m k) k = none := by
  induction m with
  | nil => simp [assocDelete, assocFind]
  | cons p rest ih =>
    obtain ⟨p1, p2⟩ := p
    by_cases h : p1 = k
    · simpa [assocDelete, List.filter_cons, h] using ih
    · simpa [assocDelete, List.filter_cons, assocFind, h] using ih

theorem assocFind_assocDelete_ne {α : Type} (m : List (String × α)) (k f : String)
    (h : f ≠ k) : assocFind (assocDelete m k) f = assocFind m f := by
  induction m with
  | nil => simp [assocDelete, assocFind]
  | cons p rest ih =>
    obtain ⟨p1, p2⟩ := p
    by_cases hp : p1 = k
    · have hf : ¬ (k = f) := fun hh => h hh.symm
      simpa [assocDelete, List.filter_cons, assocFind, hp, hf] using ih
    · by_cases hq : p1 = f
      · simp [assocDelete, List.filter_cons, assocFind, hp, hq, h]
      · simpa [assocDelete, List.filter_cons, assocFind, hp, hq] using ih

/-! ## Read-result-mapping lemmas -/

theorem readFold_absent (recs : List StoredRecord) (m : List (String × JsObj)) (k : String)
    (h : ∀ r ∈ recs, docRealId r.doc ≠ k) :
    assocFind (recs.foldl CosmosDbStorage.insertResource m) k = assocFind m k := by
  induction recs generalizing m with
  | nil => rfl
  | cons a rest ih =>
    have ha : docRealId a.doc ≠ k := h a (List.mem_cons_self a rest)
    have hrest : ∀ r ∈ rest, docRealId r.doc ≠ k :=
      fun r hrm => h r (List.mem_cons_of_mem a hrm)
    have step : assocFind (CosmosDbStorage.insertResource m a) k = assocFind m k := by
      simpa [CosmosDbStorage.insertResource] using
        assocFind_assocSet_ne m (docRealId a.doc) k _ (fun hh => ha hh.symm)
    calc assocFind ((a :: rest).foldl CosmosDbStorage.insertResource m) k
        = assocFind (rest.foldl CosmosDbStorage.insertResource
            (CosmosDbStorage.insertResource m a)) k := rfl
      _ = assocFind (CosmosDbStorage.insertResource m a) k := ih _ hrest
      _ = assocFind m k := step

theorem readFold_mem (recs : List StoredRecord) (m : List (String × JsObj)) (r : StoredRecord)
    (hdist : List.Pairwise (fun a b => docRealId a.doc ≠ docRealId b.doc) recs)
    (hr : r ∈ recs) :
    assocFind (recs.foldl CosmosDbStorage.insertResource m) (docRealId r.doc) =
      some (assocSet (docPayload r.doc) "eTag" (JsonVal.str r.etag)) := by
  induction recs generalizing m with
  | nil => cases hr
  | cons a rest ih =>
    rcases List.pairwise_cons.mp hdist with ⟨ha, hrestDist⟩
    rcases List.mem_cons.mp hr with heq | hmem
    · subst heq
      have habs : ∀ x ∈ rest, docRealId x.doc ≠ docRealId r.doc :=
        fun x hx hh => (ha x hx) hh.symm
      have h1 : assocFind ((r :: rest).foldl CosmosDbStorage.insertResource m)
          (docRealId r.doc) =
          assocFind (CosmosDbStorage.insertResource m r) (docRealId r.doc) :=
        readFold_absent rest _ _ habs
      rw [h1]
      simpa [CosmosDbStorage.insertResource] using
        assocFind_assocSet_self m (docRealId r.doc) _
    · exact ih _ hrestDist hmem

/-- A nonempty string has positive length. -/
theorem str_length_pos_of_ne (t : String) (h : t ≠ "") : 0 < t.length := by
  cases t with
  | mk l =>
    cases l with
    | nil => exact absurd rfl h
    | cons c cs => simp [String.length]

/-- Claim C9: `read`, `write` and `delete` on a null or empty input return
immediately with an empty result, unchanged state and no backend calls. -/
theorem empty_inputs_are_noops (ns : CosmosDbStorageSettings) (st : StoreState)
    (dbF contF qF : Option RawErr) (faults : List (Option RawErr)) :
    CosmosDbStorage.read ns st dbF contF qF none =
      { result := .ok [], state := st, calls := [] } ∧
    CosmosDbStorage.read ns st dbF contF qF (some []) =
      { result := .ok [], state := st, calls := [] } ∧
    CosmosDbStorage.write ns st dbF contF faults none =
      { promiseResult := .ok (), taskResults := [], state := st, calls := [] } ∧
    CosmosDbStorage.write ns st dbF contF faults (some []) =
      { promiseResult := .ok (), taskResults := [], state := st, calls := [] } ∧
    CosmosDbStorage.deleteKeys ns st dbF contF faults none =
      { promiseResult := .ok (), taskResults := [], state := st, calls := [] } ∧
    CosmosDbStorage.deleteKeys ns st dbF contF faults (some []) =
      { promiseResult := .ok (), taskResults := [], state := st, calls := [] } :=
  ⟨rfl, rfl, rfl, rfl, rfl, rfl⟩

/-- Claim C8: the per-key point-delete treats a 404 response as success
(both for an absent record and for an injected 404 transport response), and
wraps every other failure as the delete storage error. -/
theorem delete_notFound_absorbed (ns : CosmosDbStorageSettings) (c : Container) (k : String) :
    (findRec c (CosmosDbKeyEscape.escapeKey k) = none →
      CosmosDbStorage.deleteOneKey ns true c none k =
        (.ok (), c, [.deleteCall (CosmosDbKeyEscape.escapeKey k)])) ∧
    ((CosmosDbStorage.deleteOneKey ns true c (some (.httpObj 404)) k).1 = .ok ()) ∧
    (∀ e, rawCode e ≠ some 404 →
      (CosmosDbStorage.deleteOneKey ns true c (some e) k).1 =
        .error (.wrapped (CosmosDbStorage.errWithNewMessage e "Unable to delete document"))) := by
  refine ⟨?_, ?_, ?_⟩
  · intro h
    simp [CosmosDbStorage.deleteOneKey, itemPointDelete, h, rawCode]
  · simp [CosmosDbStorage.deleteOneKey, itemPointDelete, rawCode]
  · intro e he
    simp [CosmosDbStorage.deleteOneKey, itemPointDelete, he]

/-- Claim C8 witness: deleting the absent key `unk` from the one-record
container succeeds, and a 500 transport response is wrapped. -/
theorem delete_notFound_absorbed_witness :
    CosmosDbStorage.deleteOneKey ns0 true cont1 none "unk" =
      (.ok (), cont1, [.deleteCall "unk"]) ∧
    (CosmosDbStorage.deleteOneKey ns0 true cont1 (some (.httpObj 500)) "unk").1 =
      .error (.wrapped (CosmosDbStorage.errWithNewMessage (.httpObj 500)
        "Unable to delete document")) :=
  ⟨(delete_notFound_absorbed ns0 cont1 "unk").1 rfl,
   (delete_notFound_absorbed ns0 cont1 "unk").2.2 (.httpObj 500) (by decide)⟩

/-- Claim C1: per-key concurrency policy of `write` — an absent or wildcard
version tag performs an unconditional upsert that succeeds whatever the
stored version; a non-empty, non-wildcard tag performs an if-match replace,
and when the stored etag differs the task fails with the wrapped replace
error and the container is unchanged. -/
theorem write_versionTag_policy (ns : CosmosDbStorageSettings) (c : Container) (k : String)
    (item : JsObj) :
    (assocFind item "eTag" = none ∨ assocFind item "eTag" = some (JsonVal.str "*") →
      CosmosDbStorage.writeOneKey ns true c none k item =
        (.ok (),
         upsertRec c (CosmosDbStorage.mkDocumentChange ns k (assocDelete item "eTag")),
         [.upsertCall (docId (CosmosDbStorage.mkDocumentChange ns k (assocDelete item "eTag")))])) ∧
    (∀ t, assocFind item "eTag" = some (JsonVal.str t) → t ≠ "" → t ≠ "*" →
      ((CosmosDbStorage.writeOneKey ns true c none k item).2.2 =
        [.replaceCall (CosmosDbKeyEscape.escapeKey k) t]) ∧
      (∀ r, findRec c (CosmosDbKeyEscape.escapeKey k) = some r → r.etag ≠ t →
        CosmosDbStorage.writeOneKey ns true c none k item =
          (.error (.wrapped (CosmosDbStorage.errWithNewMessage (.httpObj 412)
              "Error replacing document")), c,
           [.replaceCall (CosmosDbKeyEscape.escapeKey k) t]))) := by
  constructor
  · rintro (h | h) <;>
      simp [CosmosDbStorage.writeOneKey, h, jsFalsyVal, jsEqStrVal, itemsUpsert]
  · intro t ht htne htw
    have hfal : jsFalsyVal (assocFind item "eTag") = false := by
      rw [ht]; simp [jsFalsyVal, htne]
    have heqw : jsEqStrVal (assocFind item "eTag") "*" = false := by
      rw [ht]; simp [jsEqStrVal, htw]
    have hlen : jsStrLenPos (assocFind item "eTag") = true := by
      rw [ht]; simp [jsStrLenPos, str_length_pos_of_ne t htne]
    constructor
    · simp only [CosmosDbStorage.writeOneKey, hfal, heqw, hlen]
      cases hrep : itemReplace c none (CosmosDbKeyEscape.escapeKey k) (jsStrOf (assocFind item "eTag"))
          (CosmosDbStorage.mkDocumentChange ns k (assocDelete item "eTag")) <;>
        simp [ht, jsStrOf]
    · intro r hfind hne
      have hrep : itemReplace c none (CosmosDbKeyEscape.escapeKey k) t
          (CosmosDbStorage.mkDocumentChange ns k (assocDelete item "eTag")) =
          .error (.httpObj 412) := by
        simp [itemReplace, hfind, hne]
      simp [CosmosDbStorage.writeOneKey, hfal, heqw, hlen, ht, jsStrOf, hrep,
        jsFalsyVal, jsEqStrVal, jsStrLenPos, htne, htw, str_length_pos_of_ne t htne]

/-- An update carrying the wildcard version tag. -/
def itemWild : JsObj := [("count", JsonVal.num 2), ("eTag", JsonVal.str "*")]

/-- An update carrying a version tag that no longer matches the store. -/
def itemStale : JsObj := [("count", JsonVal.num 2), ("eTag", JsonVal.str "stale")]

/-- Claim C1 witness: against the one-record container, a wildcard write
upserts unconditionally, and a stale-tag write fails with the wrapped
412 replace error leaving the container unchanged. -/
theorem write_versionTag_policy_witness :
    CosmosDbStorage.writeOneKey ns0 true cont1 none "k" itemWild =
      (.ok (),
       upsertRec cont1 (CosmosDbStorage.mkDocumentChange ns0 "k" [("count", JsonVal.num 2)]),
       [.upsertCall "k"]) ∧
    CosmosDbStorage.writeOneKey ns0 true cont1 none "k" itemStale =
      (.error (.wrapped (CosmosDbStorage.errWithNewMessage (.httpObj 412)
          "Error replacing document")), cont1, [.replaceCall "k" "stale"]) :=
  ⟨(write_versionTag_policy ns0 cont1 "k" itemWild).1 (Or.inr rfl),
   ((write_versionTag_policy ns0 cont1 "k" itemStale).2 "stale" rfl (by decide) (by decide)).2
     { doc := doc1, etag := "etag-0" } rfl (by decide)⟩

/-- Claim C2 (refuted by the code): an item whose `eTag` property holds the
empty string falls into the `!eTag` guard and is upserted unconditionally —
it overwrites the record stored under etag `etag-0` and succeeds instead of
failing with the `etag empty` error. -/
theorem write_emptyVersionTag_upserts :
    CosmosDbStorage.writeOneKey ns0 true cont1 none "k"
        [("count", JsonVal.num 2), ("eTag", JsonVal.str "")] =
      (.ok (),
       upsertRec cont1 (CosmosDbStorage.mkDocumentChange ns0 "k" [("count", JsonVal.num 2)]),
       [.upsertCall "k"]) := by
  decide

/-- Claim C3 (refuted by the code): when the backing upsert of the only key
fails, the detached per-key task is rejected with the wrapped write error
carrying the original failure, yet the promise `write` returns fulfills. -/
theorem write_failure_not_awaited :
    (CosmosDbStorage.write ns0 st1 none none [some (.jsError "boom")]
        (some [("k", item1)])).promiseResult = .ok () ∧
    (CosmosDbStorage.write ns0 st1 none none [some (.jsError "boom")]
        (some [("k", item1)])).taskResults =
      [("k", .error (.wrapped (CosmosDbStorage.errWithNewMessage (.jsError "boom")
        "Error upserting document")))] :=
  ⟨rfl, rfl⟩

/-- Claim C4 (refuted by the code): the newer constructor indexes the blank
document-store item with the already slash-prefixed partition key, so a
reserved partition key such as `id` is accepted; the older revision's
constructor rejected the same settings. -/
theorem construct_reserved_partitionKey_accepted :
    CosmosDbStorage.construct { settings0 with partitionKey := some "id" } =
      .ok { ns0 with partitionKey := some "/id" } ∧
    CosmosDbStorage.constructOld { settings0 with partitionKey := some "id" } =
      .error "partitionKey cannot be set to \"id\", \"realId\", or \"document\"" :=
  ⟨by decide, by decide⟩

/-- Claim C6: the per-key write strips exactly the `eTag` property from the
copy of the caller's item — the stripped copy has no `eTag` property and
agrees with the original on every other property — and, whenever the
partition entry does not shadow the `document` property, the document body
sent to the backing store carries exactly that stripped copy as payload. -/
theorem write_strips_versionTag (ns : CosmosDbStorageSettings) (k : String) (item : JsObj) :
    assocFind (assocDelete item "eTag") "eTag" = none ∧
    (∀ f, f ≠ "eTag" → assocFind (assocDelete item "eTag") f = assocFind item f) ∧
    ((∀ fv, CosmosDbStorage.formatPartitionKeyValue ns = some fv → fv.1 ≠ "document") →
      assocFind (CosmosDbStorage.mkDocumentChange ns k (assocDelete item "eTag")) "document" =
        some (.obj (assocDelete item "eTag"))) := by
  refine ⟨assocFind_assocDelete_self item "eTag",
    fun f hf => assocFind_assocDelete_ne item "eTag" f hf, fun hshadow => ?_⟩
  cases hfv : CosmosDbStorage.formatPartitionKeyValue ns with
  | none => simp [CosmosDbStorage.mkDocumentChange, hfv, assocFind]
  | some fv =>
    have hne : "document" ≠ fv.1 := fun hh => (hshadow fv hfv) hh.symm
    rw [CosmosDbStorage.mkDocumentChange, hfv]
    rw [assocFind_assocSet_ne _ fv.1 "document" _ hne]
    simp [assocFind]

/-- An item carrying both a payload field and a version tag. -/
def itemTagged : JsObj := [("count", JsonVal.num 1), ("eTag", JsonVal.str "v")]

/-- Claim C6 witness: stripping `itemTagged` removes its tag, keeps `count`,
and the document body built for key `k` holds the stripped payload. -/
theorem write_strips_versionTag_witness :
    assocFind (assocDelete itemTagged "eTag") "eTag" = none ∧
    assocFind (assocDelete itemTagged "eTag") "count" = assocFind itemTagged "count" ∧
    assocFind (CosmosDbStorage.mkDocumentChange ns0 "k" (assocDelete itemTagged "eTag"))
        "document" = some (.obj (assocDelete itemTagged "eTag")) :=
  ⟨(write_strips_versionTag ns0 "k" itemTagged).1,
   (write_strips_versionTag ns0 "k" itemTagged).2.1 "count" (by decide),
   (write_strips_versionTag ns0 "k" itemTagged).2.2 (fun fv hfv => by
     rw [show CosmosDbStorage.formatPartitionKeyValue ns0 = none from rfl] at hfv
     exact Option.noConfusion hfv)⟩

/-- Claim C10: a successful construction stores the normalization of a
value copy of the caller's settings: the copy is the settings value itself,
required fields are kept verbatim, the partition key is slash-prefixed
exactly when truthy, and the partition value is defaulted to the empty
string — all on the stored copy, leaving the caller's object untouched. -/
theorem construct_copies_and_normalizes (s ns : CosmosDbStorageSettings)
    (h : CosmosDbStorage.construct s = .ok ns) :
    ns = CosmosDbStorage.normalizeSettings (CosmosDbStorage.copySettings s) ∧
    CosmosDbStorage.copySettings s = s ∧
    ns.serviceEndpoint = s.serviceEndpoint ∧
    ns.authKey = s.authKey ∧
    ns.databaseId = s.databaseId ∧
    ns.collectionId = s.collectionId ∧
    ns.partitionKey = (if jsTruthyOpt s.partitionKey then
        some (CosmosDbStorage.addLeadingSlash (jsOrEmptyStr s.partitionKey))
      else s.partitionKey) ∧
    ns.partitionValue = some (jsOrEmptyStr s.partitionValue) := by
  have hns : ns = CosmosDbStorage.normalizeSettings (CosmosDbStorage.copySettings s) := by
    unfold CosmosDbStorage.construct at h
    split at h
    · cases h
    · split at h
      · cases h
      · split at h
        · cases h
        · split at h
          · cases h
          · simp only [] at h
            split at h
            · cases h
            · injection h with h2
              exact h2.symm
  have hcopy : CosmosDbStorage.copySettings s = s := rfl
  subst hns
  refine ⟨rfl, hcopy, ?_, ?_, ?_, ?_, ?_, ?_⟩ <;>
    by_cases hpk : jsTruthyOpt s.partitionKey <;>
      simp [CosmosDbStorage.normalizeSettings, CosmosDbStorage.copySettings, hpk]

/-- A partitioned settings object. -/
def settingsP : CosmosDbStorageSettings := { settings0 with partitionKey := some "pk" }

/-- The stored settings of a store built from `settingsP`. -/
def nsP : CosmosDbStorageSettings :=
  CosmosDbStorage.normalizeSettings (CosmosDbStorage.copySettings settingsP)

/-- Claim C10 witness: constructing from `settingsP` succeeds and stores
the normalized copy, whose partition key gained the leading slash and whose
partition value defaulted to the empty string. -/
theorem construct_copies_and_normalizes_witness :
    nsP = CosmosDbStorage.normalizeSettings (CosmosDbStorage.copySettings settingsP) ∧
    CosmosDbStorage.copySettings settingsP = settingsP ∧
    nsP.serviceEndpoint = settingsP.serviceEndpoint ∧
    nsP.authKey = settingsP.authKey ∧
    nsP.databaseId = settingsP.databaseId ∧
    nsP.collectionId = settingsP.collectionId ∧
    nsP.partitionKey = (if jsTruthyOpt settingsP.partitionKey then
        some (CosmosDbStorage.addLeadingSlash (jsOrEmptyStr settingsP.partitionKey))
      else settingsP.partitionKey) ∧
    nsP.partitionValue = some (jsOrEmptyStr settingsP.partitionValue) :=
  construct_copies_and_normalizes settingsP nsP (by decide)

/-- Claim C5: when the handles are materialized and the batched query
succeeds with records whose original keys are pairwise distinct, `read`
returns the accumulated mapping, every returned record appears in it under
its `realId` with the item's `eTag` set to the record's etag, and every key
no returned record carries is absent from the mapping. -/
theorem read_result_mapping (ns : CosmosDbStorageSettings) (st : StoreState)
    (ks : List String) (recs : List StoredRecord)
    (hdb : st.database = true) (hc : st.container = true) (hne : ks ≠ [])
    (hq : itemsQuery st.cont none
        ((CosmosDbStorage.buildQuerySpec ns ks).parameters.map (fun p => p.value)) = .ok recs)
    (hdist : List.Pairwise (fun a b => docRealId a.doc ≠ docRealId b.doc) recs) :
    (CosmosDbStorage.read ns st none none none (some ks)).result =
      .ok (CosmosDbStorage.readResultMap recs) ∧
    (∀ r ∈ recs,
      assocFind (CosmosDbStorage.readResultMap recs) (docRealId r.doc) =
        some (assocSet (docPayload r.doc) "eTag" (JsonVal.str r.etag))) ∧
    (∀ k2, (∀ r ∈ recs, docRealId r.doc ≠ k2) →
      assocFind (CosmosDbStorage.readResultMap recs) k2 = none) := by
  have hlen : ¬(ks.length = 0) := fun h0 => hne (List.length_eq_zero.mp h0)
  refine ⟨?_, ?_, ?_⟩
  · simp [CosmosDbStorage.read, hlen, CosmosDbStorage.ensureContainerExists, hdb, hc, hq]
  · intro r hr
    simpa [CosmosDbStorage.readResultMap] using readFold_mem recs [] r hdist hr
  · intro k2 hk
    simpa [CosmosDbStorage.readResultMap, assocFind] using readFold_absent recs [] k2 hk

/-- Claim C5 witness: reading `k` and `unk` against the one-record
container returns the mapping holding `k` with its payload and etag, with
`unk` absent. -/
theorem read_result_mapping_witness :
    (CosmosDbStorage.read ns0 st1 none none none (some ["k", "unk"])).result =
      .ok (CosmosDbStorage.readResultMap [{ doc := doc1, etag := "etag-0" }]) ∧
    assocFind (CosmosDbStorage.readResultMap [{ doc := doc1, etag := "etag-0" }]) "k" =
      some (assocSet (docPayload doc1) "eTag" (JsonVal.str "etag-0")) ∧
    assocFind (CosmosDbStorage.readResultMap [{ doc := doc1, etag := "etag-0" }]) "unk" = none := by
  have h := read_result_mapping ns0 st1 ["k", "unk"] [{ doc := doc1, etag := "etag-0" }]
    rfl rfl (by decide) (by decide) (by simp)
  exact ⟨h.1, h.2.1 { doc := doc1, etag := "etag-0" } (by simp), h.2.2 "unk" (by decide)⟩

/-- The per-key write task issues no provisioning calls. -/
theorem writeOneKey_calls_not_provision (ns : CosmosDbStorageSettings) (hc : Bool)
    (c : Container) (fault : Option RawErr) (k : String) (item : JsObj) :
    ((CosmosDbStorage.writeOneKey ns hc c fault k item).2.2).all
      (fun b => !isProvisionCall b) = true := by
  unfold CosmosDbStorage.writeOneKey
  by_cases h1 : (jsFalsyVal (assocFind item "eTag") = true ∨
      jsEqStrVal (assocFind item "eTag") "*" = true)
  · cases hc
    · simp [h1, isProvisionCall]
    · cases fault <;> simp [h1, itemsUpsert, isProvisionCall]
  · by_cases h2 : jsStrLenPos (assocFind item "eTag") = true
    · cases hc
      · simp [h1, h2, isProvisionCall]
      · cases fault with
        | none =>
          rcases hfr : findRec c (CosmosDbKeyEscape.escapeKey k) with _ | r
          · simp [h1, h2, itemReplace, hfr, isProvisionCall]
          · by_cases het : r.etag = jsStrOf (assocFind item "eTag") <;>
              simp [h1, h2, itemReplace, hfr, het, isProvisionCall]
        | some e => simp [h1, h2, itemReplace, isProvisionCall]
    · simp [h1, h2, isProvisionCall]

/-- The per-key delete task issues no provisioning calls. -/
theorem deleteOneKey_calls_not_provision (ns : CosmosDbStorageSettings) (hc : Bool)
    (c : Container) (fault : Option RawErr) (k : String) :
    ((CosmosDbStorage.deleteOneKey ns hc c fault k).2.2).all
      (fun b => !isProvisionCall b) = true := by
  unfold CosmosDbStorage.deleteOneKey
  cases hc
  · simp [isProvisionCall]
  · cases fault with
    | none =>
      rcases hfr : findRec c (CosmosDbKeyEscape.escapeKey k) with _ | r
      · simp [itemPointDelete, hfr, rawCode, isProvisionCall]
      · simp [itemPointDelete, hfr, isProvisionCall]
    | some e =>
      by_cases h404 : rawCode e = some 404 <;>
        simp [itemPointDelete, h404, isProvisionCall]

/-- The fan-out of write tasks issues no provisioning calls. -/
theorem runWriteTasks_calls_not_provision (ns : CosmosDbStorageSettings) (hc : Bool) :
    ∀ (chs : List (String × JsObj)) (faults : List (Option RawErr)) (c : Container),
    ((CosmosDbStorage.runWriteTasks ns hc chs faults c).2.2).all
      (fun b => !isProvisionCall b) = true := by
  intro chs
  induction chs with
  | nil => intro faults c; rfl
  | cons p rest ih =>
    intro faults c
    obtain ⟨k, item⟩ := p
    simp only [CosmosDbStorage.runWriteTasks, List.all_append]
    simp [writeOneKey_calls_not_provision, ih]

/-- The fan-out of delete tasks issues no provisioning calls. -/
theorem runDeleteTasks_calls_not_provision (ns : CosmosDbStorageSettings) (hc : Bool) :
    ∀ (ks : List String) (faults : List (Option RawErr)) (c : Container),
    ((CosmosDbStorage.runDeleteTasks ns hc ks faults c).2.2).all
      (fun b => !isProvisionCall b) = true := by
  intro ks
  induction ks with
  | nil => intro faults c; rfl
  | cons k rest ih =>
    intro faults c
    simp only [CosmosDbStorage.runDeleteTasks, List.all_append]
    simp [deleteOneKey_calls_not_provision, ih]

/-- Claim C7: provisioning policy — `ensureContainerExists` issues the
database create exactly when the database handle is unset and the container
create only when the container handle is unset; a 409 conflict on either
create-if-not-exists is not a failure; a fault-free provisioning pass
caches both handles, after which provisioning issues no further backend
calls whatever faults are scheduled; and each public operation on a
non-empty input issues exactly the provisioning calls first, followed only
by data calls. -/
theorem provisioning_policy (st : StoreState) (dbF contF : Option RawErr) :
    ((BackendCall.createDatabaseCall ∈
        (CosmosDbStorage.ensureContainerExists st dbF contF).calls) ↔ st.database = false) ∧
    (BackendCall.createContainerCall ∈
        (CosmosDbStorage.ensureContainerExists st dbF contF).calls → st.container = false) ∧
    ((CosmosDbStorage.getOrCreateDatabase st (some (.httpObj 409))).result = .ok ()) ∧
    (st.database = true →
      (CosmosDbStorage.getOrCreateContainer st (some (.httpObj 409))).result = .ok ()) ∧
    ((CosmosDbStorage.ensureContainerExists st none none).state.database = true ∧
     (CosmosDbStorage.ensureContainerExists st none none).state.container = true ∧
     ∀ f1 f2, CosmosDbStorage.ensureContainerExists
         (CosmosDbStorage.ensureContainerExists st none none).state f1 f2 =
       { result := .ok (),
         state := (CosmosDbStorage.ensureContainerExists st none none).state,
         calls := [] }) ∧
    (∀ ns qF (ks : List String), ks ≠ [] → ∃ rest,
      (CosmosDbStorage.read ns st dbF contF qF (some ks)).calls =
        (CosmosDbStorage.ensureContainerExists st dbF contF).calls ++ rest ∧
      rest.all (fun b => !isProvisionCall b) = true) ∧
    (∀ ns faults (chs : List (String × JsObj)), chs ≠ [] → ∃ rest,
      (CosmosDbStorage.write ns st dbF contF faults (some chs)).calls =
        (CosmosDbStorage.ensureContainerExists st dbF contF).calls ++ rest ∧
      rest.all (fun b => !isProvisionCall b) = true) ∧
    (∀ ns faults (ks : List String), ks ≠ [] → ∃ rest,
      (CosmosDbStorage.deleteKeys ns st dbF contF faults (some ks)).calls =
        (CosmosDbStorage.ensureContainerExists st dbF contF).calls ++ rest ∧
      rest.all (fun b => !isProvisionCall b) = true) := by
  refine ⟨?_, ?_, ?_, ?_, ⟨?_, ?_, ?_⟩, ?_, ?_, ?_⟩
  · cases hdb : st.database <;> cases hcont : st.container <;>
      unfold CosmosDbStorage.ensureContainerExists CosmosDbStorage.getOrCreateDatabase
        CosmosDbStorage.getOrCreateContainer <;>
      cases dbF <;> cases contF <;>
      simp [hdb, hcont, rawCode] <;> split_ifs <;> simp_all
  · cases hdb : st.database <;> cases hcont : st.container <;>
      unfold CosmosDbStorage.ensureContainerExists CosmosDbStorage.getOrCreateDatabase
        CosmosDbStorage.getOrCreateContainer <;>
      cases dbF <;> cases contF <;>
      simp [hdb, hcont, rawCode] <;> split_ifs <;> simp_all
  · simp [CosmosDbStorage.getOrCreateDatabase, rawCode]
  · intro hdb
    simp [CosmosDbStorage.getOrCreateContainer, hdb, rawCode]
  · cases hdb : st.database <;> cases hcont : st.container <;>
      simp [CosmosDbStorage.ensureContainerExists, CosmosDbStorage.getOrCreateDatabase,
        CosmosDbStorage.getOrCreateContainer, hdb, hcont]
  · cases hdb : st.database <;> cases hcont : st.container <;>
      simp [CosmosDbStorage.ensureContainerExists, CosmosDbStorage.getOrCreateDatabase,
        CosmosDbStorage.getOrCreateContainer, hdb, hcont]
  · intro f1 f2
    cases hdb : st.database <;> cases hcont : st.container <;>
      simp [CosmosDbStorage.ensureContainerExists, CosmosDbStorage.getOrCreateDatabase,
        CosmosDbStorage.getOrCreateContainer, hdb, hcont]
  · intro ns qF ks hne
    have hlen : ¬(ks.length = 0) := fun h0 => hne (List.length_eq_zero.mp h0)
    cases he : (CosmosDbStorage.ensureContainerExists st dbF contF).result with
    | error err =>
      exact ⟨[], by simp [CosmosDbStorage.read, hlen, he], rfl⟩
    | ok u =>
      cases hc2 : (CosmosDbStorage.ensureContainerExists st dbF contF).state.container with
      | false =>
        exact ⟨[], by simp [CosmosDbStorage.read, hlen, he, hc2], rfl⟩
      | true =>
        refine ⟨[BackendCall.queryCall
          ((CosmosDbStorage.buildQuerySpec ns ks).parameters.map (fun p => p.value))], ?_, by
            simp [isProvisionCall]⟩
        cases hqr : itemsQuery (CosmosDbStorage.ensureContainerExists st dbF contF).state.cont qF
            ((CosmosDbStorage.buildQuerySpec ns ks).parameters.map (fun p => p.value)) with
        | ok recs => simp [CosmosDbStorage.read, hlen, he, hc2, hqr]
        | error err2 =>
          by_cases h400 : rawCode err2 = some 400 <;>
            simp [CosmosDbStorage.read, hlen, he, hc2, hqr, h400]
  · intro ns faults chs hne
    have hlen : ¬(chs.length = 0) := fun h0 => hne (List.length_eq_zero.mp h0)
    cases he : (CosmosDbStorage.ensureContainerExists st dbF contF).result with
    | error err =>
      exact ⟨[], by simp [CosmosDbStorage.write, hlen, he], rfl⟩
    | ok u =>
      refine ⟨(CosmosDbStorage.runWriteTasks ns
          (CosmosDbStorage.ensureContainerExists st dbF contF).state.container chs faults
          (CosmosDbStorage.ensureContainerExists st dbF contF).state.cont).2.2, ?_, ?_⟩
      · simp [CosmosDbStorage.write, hlen, he]
      · exact runWriteTasks_calls_not_provision ns _ chs faults _
  · intro ns faults ks hne
    have hlen : ¬(ks.length = 0) := fun h0 => hne (List.length_eq_zero.mp h0)
    cases he : (CosmosDbStorage.ensureContainerExists st dbF contF).result with
    | error err =>
      exact ⟨[], by simp [CosmosDbStorage.deleteKeys, hlen, he], rfl⟩
    | ok u =>
      refine ⟨(CosmosDbStorage.runDeleteTasks ns
          (CosmosDbStorage.ensureContainerExists st dbF contF).state.container ks faults
          (CosmosDbStorage.ensureContainerExists st dbF contF).state.cont).2.2, ?_, ?_⟩
      · simp [CosmosDbStorage.deleteKeys, hlen, he]
      · exact runDeleteTasks_calls_not_provision ns _ ks faults _

/-- Claim C7 witness: on a fresh store the database create is issued, a 409
on either create is absorbed (the container case taken on the materialized
store), and each public operation on a singleton input issues the
provisioning calls first followed only by data calls. -/
theorem provisioning_policy_witness :
    ((BackendCall.createDatabaseCall ∈
        (CosmosDbStorage.ensureContainerExists stFresh none none).calls) ↔
      stFresh.database = false) ∧
    ((CosmosDbStorage.getOrCreateDatabase stFresh (some (.httpObj 409))).result = .ok ()) ∧
    ((CosmosDbStorage.getOrCreateContainer st1 (some (.httpObj 409))).result = .ok ()) ∧
    (∃ rest, (CosmosDbStorage.read ns0 stFresh none none none (some ["k"])).calls =
        (CosmosDbStorage.ensureContainerExists stFresh none none).calls ++ rest ∧
      rest.all (fun b => !isProvisionCall b) = true) ∧
    (∃ rest, (CosmosDbStorage.write ns0 stFresh none none [] (some [("k", item1)])).calls =
        (CosmosDbStorage.ensureContainerExists stFresh none none).calls ++ rest ∧
      rest.all (fun b => !isProvisionCall b) = true) ∧
    (∃ rest, (CosmosDbStorage.deleteKeys ns0 stFresh none none [] (some ["k"])).calls =
        (CosmosDbStorage.ensureContainerExists stFresh none none).calls ++ rest ∧
      rest.all (fun b => !isProvisionCall b) = true) :=
  ⟨(provisioning_policy stFresh none none).1,
   (provisioning_policy stFresh none none).2.2.1,
   (provisioning_policy st1 none none).2.2.2.1 rfl,
   (provisioning_policy stFresh none none).2.2.2.2.2.1 ns0 none ["k"] (by decide),
   (provisioning_policy stFresh none none).2.2.2.2.2.2.1 ns0 [] [("k", item1)] (by decide),
   (provisioning_policy stFresh none none).2.2.2.2.2.2.2 ns0 [] ["k"] (by decide)⟩
